import Mathlib

/- Verification of the starlite routing core against its specification.

   The model below is a shallow embedding of:
     * src/starlite/app.py       (route map construction, middleware stack
                                  compilation, application shell wrap order),
     * src/starlite/exceptions/exceptions.py (exception classes and their
                                  default HTTP status codes).

   Python dictionaries keyed by strings are modelled as association lists
   (`assocLookup` / `setAssoc` mirror dict lookup and item assignment,
   preserving insertion order), Python sets as duplicate-free lists
   (`addToSet` mirrors `set.add`), and the `route_map` tree of dicts as the
   inductive `RouteMapNode`, whose special keys `_components`,
   `_path_parameters`, `_asgi_handlers`, `_is_asgi` and `_static_path` are
   fields of `NodeData` while the remaining (path-segment / plain-path) keys
   form the `children` association list.  `Option` fields record whether the
   corresponding special key is present in the dict.  Opaque collaborators
   (middleware callables, exception-handler mappings, config objects) are
   represented by identifiers; ASGI applications built by wrapping are the
   inductive `ASGIApp`, one constructor per wrapper used in app.py. -/

set_option maxRecDepth 8000

/-- Path-parameter descriptor as consumed by app.py: the `full` field is the
text of the placeholder between braces (e.g. "id:int"), which
`_add_node_to_route_map` strips from the path via `str.replace`. -/
structure PathParam where
  name : String
  typ : String
  full : String
deriving DecidableEq, Repr

/-- A route handler with its scope-chain resolutions precomputed.
`resolve_exception_handlers` and `resolve_middleware` live outside src/
(handlers/base.py); app.py only consumes their results, so the resolved
values are fields.  Exception-handler mappings and middleware are opaque. -/
structure RouteHandler where
  resolvedExceptionHandlers : List (Nat × Nat)
  resolvedMiddleware : List Nat
deriving DecidableEq, Repr

/-- The three route protocols of app.py (HTTPRoute / WebSocketRoute /
ASGIRoute).  For HTTP, `routeHandlerMap` is `route.route_handler_map`
restricted to the handler of each (handler, kwargs-model) pair, which is all
`_configure_route_map_node` uses. -/
inductive RouteKind where
  | http (routeHandlerMap : List (String × RouteHandler))
  | websocket (routeHandler : RouteHandler)
  | asgi (routeHandler : RouteHandler)
deriving DecidableEq, Repr

/-- A route declaration.  `routeId` stands for the object identity of the
route (used for `route.handle` and for membership in `_registered_routes`). -/
structure Route where
  routeId : Nat
  path : String
  pathParameters : List PathParam
  kind : RouteKind
deriving DecidableEq, Repr

/-- ASGI applications as built by app.py: the router, a route's `handle`
method, and each wrapper app.py applies around them. -/
inductive ASGIApp where
  | asgiRouter
  | routeHandle (routeId : Nat)
  | exceptionHandlerMiddleware (app : ASGIApp) (exceptionHandlers : List (Nat × Nat)) (debug : Bool)
  | middlewareWrap (middlewareId : Nat) (app : ASGIApp)
  | compressionMiddleware (app : ASGIApp) (config : Nat)
  | trustedHostMiddleware (app : ASGIApp) (allowedHosts : List String)
  | corsMiddleware (app : ASGIApp) (config : Nat)
  | csrfMiddleware (app : ASGIApp) (config : Nat)
deriving DecidableEq, Repr

/-- The configuration error raised by app.py during registration
(ImproperlyConfiguredException with its detail string). -/
inductive StarliteError where
  | improperlyConfigured (detail : String)
deriving DecidableEq, Repr

/-- The exception classes of src/starlite/exceptions/exceptions.py that carry
a default HTTP status code. -/
inductive ExceptionClass where
  | httpException
  | improperlyConfiguredException
  | validationException
  | notAuthorizedException
  | permissionDeniedException
  | notFoundException
  | methodNotAllowedException
  | internalServerException
  | serviceUnavailableException
deriving DecidableEq, Repr

/-- The `status_code` class attribute of each exception class in
src/starlite/exceptions/exceptions.py. -/
def ExceptionClass.defaultStatusCode : ExceptionClass → Nat
  | .httpException => 500
  | .improperlyConfiguredException => 500
  | .validationException => 400
  | .notAuthorizedException => 401
  | .permissionDeniedException => 403
  | .notFoundException => 404
  | .methodNotAllowedException => 405
  | .internalServerException => 500
  | .serviceUnavailableException => 503

/-- Dictionary lookup on a string-keyed association list. -/
def assocLookup {α : Type} : List (String × α) → String → Option α
  | [], _ => none
  | (k, v) :: rest, key => if k = key then some v else assocLookup rest key

/-- Dictionary item assignment: replace the binding in place if the key is
present, append it otherwise (Python dicts preserve insertion order). -/
def setAssoc {α : Type} : List (String × α) → String → α → List (String × α)
  | [], key, v => [(key, v)]
  | (k, w) :: rest, key, v =>
    if k = key then (key, v) :: rest else (k, w) :: setAssoc rest key v

/-- Python `set.add` on a duplicate-free list model of a set. -/
def addToSet {α : Type} [DecidableEq α] (x : α) (l : List α) : List α :=
  if x ∈ l then l else l ++ [x]

/-- The special keys of a route_map dict node (`_components`,
`_path_parameters`, `_asgi_handlers`, `_is_asgi`, `_static_path`); an
`Option` that is `none` means the key is absent from the dict. -/
structure NodeData where
  components : List String
  pathParameters : Option (List PathParam)
  asgiHandlers : Option (List (String × ASGIApp))
  isAsgi : Option Bool
  staticPath : Option String
deriving DecidableEq, Repr

/-- A route_map tree node: the special keys (as `NodeData`) plus the child
nodes keyed by path segment (or, off the root, by full plain-route path). -/
inductive RouteMapNode where
  | node (data : NodeData) (children : List (String × RouteMapNode))

/-- Special-key fields of a node. -/
def RouteMapNode.data : RouteMapNode → NodeData
  | .node d _ => d

/-- Child bindings of a node. -/
def RouteMapNode.children : RouteMapNode → List (String × RouteMapNode)
  | .node _ c => c

/-- Replace the special-key fields of a node. -/
def RouteMapNode.withData : RouteMapNode → NodeData → RouteMapNode
  | .node _ c, d => .node d c

/-- Replace the child bindings of a node. -/
def RouteMapNode.withChildren : RouteMapNode → List (String × RouteMapNode) → RouteMapNode
  | .node d _, c => .node d c

/-- Child lookup, i.e. `current_node[component]`. -/
def RouteMapNode.child (n : RouteMapNode) (k : String) : Option RouteMapNode :=
  assocLookup n.children k

/-- A freshly created node, `{"_components": set()}`. -/
def emptyNodeData : NodeData :=
  { components := [], pathParameters := none, asgiHandlers := none,
    isAsgi := none, staticPath := none }

/-- A freshly created tree node. -/
def emptyRouteMapNode : RouteMapNode :=
  .node emptyNodeData []

/-- Whether the first character list is an initial segment of the second. -/
def charsLead : List Char → List Char → Bool
  | [], _ => true
  | _ :: _, [] => false
  | p :: ps, c :: cs => p = c && charsLead ps cs

/-- Fuel-indexed worker for `pyReplace`: scan left to right, replacing each
non-overlapping occurrence of `pat`.  The fuel is the length of the input,
which bounds the number of steps since each step consumes at least one
character. -/
def replaceChars (pat rep : List Char) : Nat → List Char → List Char
  | _, [] => []
  | 0, s => s
  | fuel + 1, c :: rest =>
    if charsLead pat (c :: rest) && !pat.isEmpty then
      rep ++ replaceChars pat rep fuel (List.drop (pat.length - 1) rest)
    else
      c :: replaceChars pat rep fuel rest

/-- Python `str.replace` for the non-empty patterns app.py uses (a
parameter's `full` text and the literal "{}"): replace every non-overlapping
occurrence, scanning left to right. -/
def pyReplace (s pat rep : String) : String :=
  if pat.toList.isEmpty then s
  else String.mk (replaceChars pat.toList rep.toList s.toList.length s.toList)

/-- Worker for `pySplitSlash`, accumulating the current piece reversed. -/
def splitChars : List Char → List Char → List String
  | acc, [] => [String.mk acc.reverse]
  | acc, c :: rest =>
    if c = '/' then String.mk acc.reverse :: splitChars [] rest
    else splitChars (c :: acc) rest

/-- Python `path.split("/")`. -/
def pySplitSlash (s : String) : List String :=
  splitChars [] s.toList

/-- The component list walked by the trie branch of `_add_node_to_route_map`:
strip each parameter's `full` placeholder text, turn each leftover "{}" into
the wildcard marker "*", split on "/", and prepend the root segment "/" to
the non-empty pieces. -/
def routeComponents (route : Route) : List String :=
  let stripped := route.pathParameters.foldl (fun p param => pyReplace p param.full "") route.path
  let starred := pyReplace stripped "{}" "*"
  "/" :: (pySplitSlash starred).filter (fun c => !c.isEmpty)

/-- `Starlite._wrap_in_exception_handler`: wrap an app in
ExceptionHandlerMiddleware with the given handler mapping and debug flag. -/
def wrapInExceptionHandler (debug : Bool) (app : ASGIApp)
    (exceptionHandlers : List (Nat × Nat)) : ASGIApp :=
  ASGIApp.exceptionHandlerMiddleware app exceptionHandlers debug

/-- `Starlite._build_route_middleware_stack`: wrap `route.handle` in
ExceptionHandlerMiddleware with the handler's resolved exception handlers,
wrap that in each resolved middleware in order, then wrap the whole stack in
ExceptionHandlerMiddleware again with the same resolved mapping. -/
def buildRouteMiddlewareStack (debug : Bool) (route : Route)
    (routeHandler : RouteHandler) : ASGIApp :=
  let inner := wrapInExceptionHandler debug (ASGIApp.routeHandle route.routeId)
    routeHandler.resolvedExceptionHandlers
  let stacked := routeHandler.resolvedMiddleware.foldl
    (fun acc m => ASGIApp.middlewareWrap m acc) inner
  wrapInExceptionHandler debug stacked routeHandler.resolvedExceptionHandlers

/-- Nested middleware wrapping with the head of the list innermost; the
specification-side description of step 3 of the middleware stack compiler. -/
def nestMiddleware : List Nat → ASGIApp → ASGIApp
  | [], app => app
  | m :: rest, app => nestMiddleware rest (ASGIApp.middlewareWrap m app)

/-- The application-shell configuration consumed by
`Starlite._create_asgi_handler`; config objects are opaque identifiers.
`allowedHosts` is a plain Python list, so `if self.allowed_hosts:` is falsy
both for `None` and for an empty list. -/
structure AppConfig where
  compressionConfig : Option Nat
  allowedHosts : Option (List String)
  corsConfig : Option Nat
  csrfConfig : Option Nat
  exceptionHandlers : Option (List (Nat × Nat))
  debug : Bool
deriving DecidableEq, Repr

/-- `Starlite._create_asgi_handler`: starting from the router, wrap in
compression, trusted-host, CORS and CSRF middleware when configured (in that
application order, so compression ends up innermost), then always wrap in
ExceptionHandlerMiddleware with `self.exception_handlers or {}`. -/
def createAsgiHandler (cfg : AppConfig) : ASGIApp :=
  let h0 : ASGIApp := ASGIApp.asgiRouter
  let h1 := match cfg.compressionConfig with
    | some c => ASGIApp.compressionMiddleware h0 c
    | none => h0
  let h2 := match cfg.allowedHosts with
    | some (a :: rest) => ASGIApp.trustedHostMiddleware h1 (a :: rest)
    | _ => h1
  let h3 := match cfg.corsConfig with
    | some c => ASGIApp.corsMiddleware h2 c
    | none => h2
  let h4 := match cfg.csrfConfig with
    | some c => ASGIApp.csrfMiddleware h3 c
    | none => h3
  ASGIApp.exceptionHandlerMiddleware h4 (cfg.exceptionHandlers.getD []) cfg.debug

/-- Observation function on ASGI stacks: the wrapper layers from outermost to
innermost, as tags. -/
def shellLayers : ASGIApp → List String
  | .asgiRouter => ["router"]
  | .routeHandle _ => ["route_handle"]
  | .exceptionHandlerMiddleware a _ _ => "exception_handler" :: shellLayers a
  | .middlewareWrap _ a => "middleware" :: shellLayers a
  | .compressionMiddleware a _ => "compression" :: shellLayers a
  | .trustedHostMiddleware a _ => "trusted_host" :: shellLayers a
  | .corsMiddleware a _ => "cors" :: shellLayers a
  | .csrfMiddleware a _ => "csrf" :: shellLayers a

/-- The dispatch-key/handler entries `_configure_route_map_node` installs for
a route: one per HTTP method for HTTPRoute, the fixed key "websocket" for
WebSocketRoute, the fixed key "asgi" for ASGIRoute. -/
def routeHandlerEntries (route : Route) : List (String × RouteHandler) :=
  match route.kind with
  | .http m => m
  | .websocket rh => [("websocket", rh)]
  | .asgi rh => [("asgi", rh)]

/-- `Starlite._configure_route_map_node`: set `_path_parameters`,
`_asgi_handlers` and `_is_asgi` when absent; for a static path, fail if the
node has components, else mark it static and ASGI; then install one compiled
middleware stack per dispatch key, and mark ASGI routes' nodes ASGI. -/
def configureRouteMapNode (staticPaths : List String) (debug : Bool) (route : Route)
    (n : RouteMapNode) : RouteMapNode × Option StarliteError :=
  let d0 := n.data
  let d1 := if d0.pathParameters.isNone then
      { d0 with pathParameters := some route.pathParameters } else d0
  let d2 := if d1.asgiHandlers.isNone then { d1 with asgiHandlers := some [] } else d1
  let d3 := if d2.isAsgi.isNone then { d2 with isAsgi := some false } else d2
  if route.path ∈ staticPaths ∧ d3.components ≠ [] then
    (n.withData d3,
      some (StarliteError.improperlyConfigured "Cannot have configured routes below a static path"))
  else
    let d4 := if route.path ∈ staticPaths then
        { d3 with staticPath := some route.path, isAsgi := some true } else d3
    let handlers := (routeHandlerEntries route).foldl
      (fun hs entry => setAssoc hs entry.1 (buildRouteMiddlewareStack debug route entry.2))
      (d4.asgiHandlers.getD [])
    let d5 := { d4 with asgiHandlers := some handlers }
    let d6 := match route.kind with
      | RouteKind.asgi _ => { d5 with isAsgi := some true }
      | _ => d5
    (n.withData d6, none)

/-- The per-component loop of the trie branch of
`Starlite._add_node_to_route_map`: at each component, add it to the current
node's `_components` set, create the child node if absent, fail if the child
is marked as a static path, and descend; at the end of the component list,
configure the reached node.  Mutations made before a failure persist in the
returned tree, as they do on the Python dicts when the exception is raised. -/
def walkRouteMap (staticPaths : List String) (debug : Bool) (route : Route) :
    RouteMapNode → List String → RouteMapNode × Option StarliteError
  | n, [] => configureRouteMapNode staticPaths debug route n
  | n, comp :: rest =>
    let n0 := n.withData { n.data with components := addToSet comp n.data.components }
    match n0.child comp with
    | some childNode =>
      if childNode.data.staticPath.isSome then
        (n0,
          some (StarliteError.improperlyConfigured "Cannot have configured routes below a static path"))
      else
        let result := walkRouteMap staticPaths debug route childNode rest
        (n0.withChildren (setAssoc n0.children comp result.1), result.2)
    | none =>
      let n1 := n0.withChildren (setAssoc n0.children comp emptyRouteMapNode)
      let result := walkRouteMap staticPaths debug route emptyRouteMapNode rest
      (n1.withChildren (setAssoc n1.children comp result.1), result.2)

/-- The mutable application state owned by the Starlite instance:
`route_map`, `plain_routes`, `_static_paths`, `_registered_routes`,
`self.routes` and the debug flag. -/
structure AppState where
  routeMap : RouteMapNode
  plainRoutes : List String
  staticPaths : List String
  registeredRoutes : List Route
  routes : List Route
  debug : Bool

/-- `Starlite._add_node_to_route_map`: routes with path parameters (or whose
path is a static path) walk the trie from the root along `routeComponents`;
all other routes use the full path as a literal key off the root, creating
the entry only when absent, and record the path in `plain_routes`.  The
returned component list is the access path of the node returned by the
Python method (the configured node). -/
def addNodeToRouteMap (s : AppState) (route : Route) :
    AppState × List String × Option StarliteError :=
  if route.pathParameters ≠ [] ∨ route.path ∈ s.staticPaths then
    let comps := routeComponents route
    let result := walkRouteMap s.staticPaths s.debug route s.routeMap comps
    ({ s with routeMap := result.1 }, comps, result.2)
  else
    let plain := addToSet route.path s.plainRoutes
    match s.routeMap.child route.path with
    | some childNode =>
      let result := configureRouteMapNode s.staticPaths s.debug route childNode
      ({ s with
          routeMap := s.routeMap.withChildren
            (setAssoc s.routeMap.children route.path result.1),
          plainRoutes := plain }, [route.path], result.2)
    | none =>
      let root1 := s.routeMap.withChildren
        (setAssoc s.routeMap.children route.path emptyRouteMapNode)
      let result := configureRouteMapNode s.staticPaths s.debug route emptyRouteMapNode
      ({ s with
          routeMap := root1.withChildren (setAssoc root1.children route.path result.1),
          plainRoutes := plain }, [route.path], result.2)

/-- Follow an access path of child keys down the tree. -/
def getNode : RouteMapNode → List String → Option RouteMapNode
  | n, [] => some n
  | n, k :: rest =>
    match n.child k with
    | some c => getNode c rest
    | none => none

/-- Follow an access path down the tree, materialising a fresh empty node
wherever a child is absent (the node `_add_node_to_route_map` would create). -/
def getNodeD : RouteMapNode → List String → RouteMapNode
  | n, [] => n
  | n, k :: rest => getNodeD ((n.child k).getD emptyRouteMapNode) rest

/-- The body of the loop in `Starlite._construct_route_map` for one route:
insert the route's node, propagate any insertion error, then raise if the
node's `_path_parameters` differ from the route's, else record the route as
registered.  On an error the already-performed mutations are kept, as they
are on the Python object when the exception propagates. -/
def registerRouteStep (s : AppState) (route : Route) : AppState × Option StarliteError :=
  let added := addNodeToRouteMap s route
  match added.2.2 with
  | some e => (added.1, some e)
  | none =>
    match getNode added.1.routeMap added.2.1 with
    | some n =>
      if n.data.pathParameters ≠ some route.pathParameters then
        (added.1,
          some (StarliteError.improperlyConfigured "Should not use routes with conflicting path parameters"))
      else
        ({ added.1 with registeredRoutes := addToSet route added.1.registeredRoutes }, none)
    | none => (added.1, none)

/-- Fold `registerRouteStep` over a list of routes, stopping at the first
error (the raised exception aborts the Python loop). -/
def constructRouteMapAux : AppState → List Route → AppState × Option StarliteError
  | s, [] => (s, none)
  | s, r :: rest =>
    let step := registerRouteStep s r
    match step.2 with
    | some e => (step.1, some e)
    | none => constructRouteMapAux step.1 rest

/-- `Starlite._construct_route_map`: process every route of `self.routes`
that is not yet in `_registered_routes` (the new-routes list is computed
before the loop runs). -/
def constructRouteMap (s : AppState) : AppState × Option StarliteError :=
  let newRoutes := s.routes.filter (fun r => !decide (r ∈ s.registeredRoutes))
  constructRouteMapAux s newRoutes

/-- Modelled from the spec: the dispatcher (StarliteASGIRouter, in
starlite/asgi.py, which is not under src/) splits the request path into its
root segment "/" followed by the non-empty "/"-separated components
(spec 4.4 step 2). -/
def requestComponents (path : String) : List String :=
  "/" :: (pySplitSlash path).filter (fun c => !c.isEmpty)

/-- Modelled from the spec: the dispatcher's trie walk (spec 4.4 step 2) —
at each level prefer an exact literal child match, fall back to the wildcard
child "*", and fail when neither exists. -/
def trieWalk : RouteMapNode → List String → Option RouteMapNode
  | n, [] => some n
  | n, comp :: rest =>
    match n.child comp with
    | some c => trieWalk c rest
    | none =>
      match n.child "*" with
      | some c => trieWalk c rest
      | none => none

/-- Modelled from the spec: dispatcher node resolution (spec 4.4 steps 1-2) —
use the plain-route index for an exact match, otherwise walk the trie. -/
def findNode (s : AppState) (path : String) : Option RouteMapNode :=
  if path ∈ s.plainRoutes then s.routeMap.child path
  else trieWalk s.routeMap (requestComponents path)

/-- Modelled from the spec: dispatcher handler selection (spec 4.4 step 4 and
spec 7) — no matching node is a "not found" outcome; a matching node whose
`_asgi_handlers` lack the dispatch key is the distinct "method not allowed"
outcome.  The exception classes raised are those of
src/starlite/exceptions/exceptions.py. -/
def resolveHandler (s : AppState) (path : String) (dispatchKey : String) :
    Except ExceptionClass ASGIApp :=
  match findNode s path with
  | none => Except.error ExceptionClass.notFoundException
  | some n =>
    match assocLookup (n.data.asgiHandlers.getD []) dispatchKey with
    | some h => Except.ok h
    | none => Except.error ExceptionClass.methodNotAllowedException

/-- An application state as `Starlite.__init__` sets it up before any route
is registered (given the static paths collected from static_files_config). -/
def freshState (staticPaths : List String) : AppState :=
  { routeMap := emptyRouteMapNode, plainRoutes := [], staticPaths := staticPaths,
    registeredRoutes := [], routes := [], debug := false }

/-- Demo handler used by the concrete evaluation theorems below. -/
def demoHandler : RouteHandler :=
  { resolvedExceptionHandlers := [], resolvedMiddleware := [] }

/-- The ASGI route created for a static-files mount at "/static". -/
def staticMountRoute : Route :=
  { routeId := 1, path := "/static", pathParameters := [], kind := .asgi demoHandler }

/-- A parameter-free HTTP route below the static mount path. -/
def staticExtraRoute : Route :=
  { routeId := 2, path := "/static/extra", pathParameters := [],
    kind := .http [("GET", demoHandler)] }

/-- GET /a/{id:int}. -/
def intParamRoute : Route :=
  { routeId := 3, path := "/a/{id:int}",
    pathParameters := [{ name := "id", typ := "int", full := "id:int" }],
    kind := .http [("GET", demoHandler)] }

/-- GET /a/{id:str}: same trie node as `intParamRoute`, different parameter
descriptors. -/
def strParamRoute : Route :=
  { routeId := 4, path := "/a/{id:str}",
    pathParameters := [{ name := "id", typ := "str", full := "id:str" }],
    kind := .http [("GET", demoHandler)] }

/-- GET /foo/{id:int}. -/
def fooParamRoute : Route :=
  { routeId := 5, path := "/foo/{id:int}",
    pathParameters := [{ name := "id", typ := "int", full := "id:int" }],
    kind := .http [("GET", demoHandler)] }

/-- GET /health, a plain route. -/
def healthRoute : Route :=
  { routeId := 6, path := "/health", pathParameters := [], kind := .http [("GET", demoHandler)] }

/-- A fresh application whose declared routes are just /health. -/
def pingState : AppState :=
  { freshState [] with routes := [healthRoute] }

/-- The state after registering /a/{id:int} on a fresh application. -/
def conflictState : AppState :=
  (registerRouteStep (freshState []) intParamRoute).1

/-- The raw insertion result for the conflicting route /a/{id:str}. -/
def conflictAdded : AppState × List String × Option StarliteError :=
  addNodeToRouteMap conflictState strParamRoute

/-- The shared trie node after the conflicting insertion. -/
def conflictNode : RouteMapNode :=
  (getNode conflictAdded.1.routeMap conflictAdded.2.1).getD emptyRouteMapNode

/-- The raw insertion result for /foo/{id:int} on a fresh application. -/
def fooAdded : AppState × List String × Option StarliteError :=
  addNodeToRouteMap (freshState []) fooParamRoute

/-- The raw insertion result for /health on a fresh application. -/
def healthAdded : AppState × List String × Option StarliteError :=
  addNodeToRouteMap (freshState []) healthRoute

/-- The node serving /known in `demoDispatchState`. -/
def demoKnownNode : RouteMapNode :=
  RouteMapNode.node
    { emptyNodeData with asgiHandlers := some [("GET", ASGIApp.routeHandle 7)] } []

/-- A state with one plain route /known serving only GET. -/
def demoDispatchState : AppState :=
  { freshState [] with
      routeMap := RouteMapNode.node emptyNodeData [("/known", demoKnownNode)],
      plainRoutes := ["/known"] }

/-- A state whose route map already has a root child "/". -/
def demoTreeState : AppState :=
  { freshState [] with
      routeMap := RouteMapNode.node emptyNodeData [("/", emptyRouteMapNode)] }

/-- The shell configuration used to refute the claimed shell wrap order:
compression configured, and an empty (but provided) allowed-hosts list. -/
def c2Config : AppConfig :=
  { compressionConfig := some 1, allowedHosts := some [], corsConfig := none,
    csrfConfig := none, exceptionHandlers := none, debug := false }

/-- The preservation relation of spec 5: every node reachable in `a` is still
reachable in `b`, and its existing child keys are all still present. -/
def nodesPreserved (a b : RouteMapNode) : Prop :=
  ∀ p m, getNode a p = some m →
    ∃ m2, getNode b p = some m2 ∧
      ∀ k, (m.child k).isSome = true → (m2.child k).isSome = true

theorem data_withData (n : RouteMapNode) (d : NodeData) : (n.withData d).data = d := by
  cases n; rfl

theorem children_withData (n : RouteMapNode) (d : NodeData) :
    (n.withData d).children = n.children := by
  cases n; rfl

theorem child_withData (n : RouteMapNode) (d : NodeData) (k : String) :
    (n.withData d).child k = n.child k := by
  cases n; rfl

theorem data_withChildren (n : RouteMapNode) (c : List (String × RouteMapNode)) :
    (n.withChildren c).data = n.data := by
  cases n; rfl

theorem children_withChildren (n : RouteMapNode) (c : List (String × RouteMapNode)) :
    (n.withChildren c).children = c := by
  cases n; rfl

theorem child_withChildren (n : RouteMapNode) (c : List (String × RouteMapNode)) (k : String) :
    (n.withChildren c).child k = assocLookup c k := by
  cases n; rfl

theorem assocLookup_setAssoc_self {α : Type} (l : List (String × α)) (k : String) (v : α) :
    assocLookup (setAssoc l k v) k = some v := by
  induction l with
  | nil => simp [setAssoc, assocLookup]
  | cons hd rest ih =>
    obtain ⟨k0, v0⟩ := hd
    by_cases hk : k0 = k <;> simp [setAssoc, assocLookup, hk, ih]

theorem assocLookup_setAssoc_ne {α : Type} (l : List (String × α)) (k k2 : String) (v : α)
    (h : k2 ≠ k) : assocLookup (setAssoc l k v) k2 = assocLookup l k2 := by
  have hk2 : ¬k = k2 := fun he => h he.symm
  induction l with
  | nil => simp [setAssoc, assocLookup, hk2]
  | cons hd rest ih =>
    obtain ⟨k0, v0⟩ := hd
    by_cases hk : k0 = k
    · subst hk
      simp [setAssoc, assocLookup, hk2]
    · simp [setAssoc, assocLookup, hk, ih]

theorem assocLookup_setAssoc_isSome {α : Type} (l : List (String × α)) (k k2 : String) (v : α)
    (h : (assocLookup l k2).isSome = true) :
    (assocLookup (setAssoc l k v) k2).isSome = true := by
  by_cases hk : k2 = k
  · subst hk; simp [assocLookup_setAssoc_self]
  · rwa [assocLookup_setAssoc_ne _ _ _ _ hk]

theorem mem_addToSet_self {α : Type} [DecidableEq α] (x : α) (l : List α) :
    x ∈ addToSet x l := by
  by_cases h : x ∈ l <;> simp [addToSet, h]

theorem mem_addToSet_of_mem {α : Type} [DecidableEq α] {x y : α} {l : List α}
    (h : y ∈ l) : y ∈ addToSet x l := by
  by_cases hx : x ∈ l <;> simp [addToSet, hx, h]


theorem configure_children (sp : List String) (dbg : Bool) (r : Route) (n : RouteMapNode) :
    ((configureRouteMapNode sp dbg r n).1).children = n.children := by
  obtain ⟨rid, path, pp, kind⟩ := r
  cases hA : n.data.pathParameters <;> cases hB : n.data.asgiHandlers <;>
    cases hC : n.data.isAsgi <;> by_cases hD : path ∈ sp <;>
    by_cases hE : n.data.components = [] <;> cases kind <;>
    simp [configureRouteMapNode, hA, hB, hC, hD, hE, children_withData]

theorem configure_components (sp : List String) (dbg : Bool) (r : Route) (n : RouteMapNode) :
    ((configureRouteMapNode sp dbg r n).1).data.components = n.data.components := by
  obtain ⟨rid, path, pp, kind⟩ := r
  cases hA : n.data.pathParameters <;> cases hB : n.data.asgiHandlers <;>
    cases hC : n.data.isAsgi <;> by_cases hD : path ∈ sp <;>
    by_cases hE : n.data.components = [] <;> cases kind <;>
    simp [configureRouteMapNode, hA, hB, hC, hD, hE, data_withData]

theorem configure_pathParameters (sp : List String) (dbg : Bool) (r : Route) (n : RouteMapNode) :
    ((configureRouteMapNode sp dbg r n).1).data.pathParameters =
      some (n.data.pathParameters.getD r.pathParameters) := by
  obtain ⟨rid, path, pp, kind⟩ := r
  cases hA : n.data.pathParameters <;> cases hB : n.data.asgiHandlers <;>
    cases hC : n.data.isAsgi <;> by_cases hD : path ∈ sp <;>
    by_cases hE : n.data.components = [] <;> cases kind <;>
    simp [configureRouteMapNode, hA, hB, hC, hD, hE, data_withData]

theorem configure_asgiHandlers (sp : List String) (dbg : Bool) (r : Route) (n : RouteMapNode)
    (hok : (configureRouteMapNode sp dbg r n).2 = none) :
    ((configureRouteMapNode sp dbg r n).1).data.asgiHandlers =
      some ((routeHandlerEntries r).foldl
        (fun hs entry => setAssoc hs entry.1 (buildRouteMiddlewareStack dbg r entry.2))
        (n.data.asgiHandlers.getD [])) := by
  obtain ⟨rid, path, pp, kind⟩ := r
  cases hA : n.data.pathParameters <;> cases hB : n.data.asgiHandlers <;>
    cases hC : n.data.isAsgi <;> by_cases hD : path ∈ sp <;>
    by_cases hE : n.data.components = [] <;> cases kind <;>
    simp_all [configureRouteMapNode, data_withData, routeHandlerEntries]

theorem assocLookup_installFold_notMem {α : Type} (f : RouteHandler → α)
    (entries : List (String × RouteHandler)) (key : String)
    (hkey : key ∉ entries.map Prod.fst) :
    ∀ init : List (String × α),
      assocLookup (entries.foldl (fun hs e => setAssoc hs e.1 (f e.2)) init) key =
        assocLookup init key := by
  induction entries with
  | nil => intro init; rfl
  | cons e rest ih =>
    intro init
    simp only [List.map_cons, List.mem_cons] at hkey
    push_neg at hkey
    simp only [List.foldl_cons]
    rw [ih hkey.2, assocLookup_setAssoc_ne _ _ _ _ hkey.1]

theorem assocLookup_installFold {α : Type} (f : RouteHandler → α)
    (entries : List (String × RouteHandler)) (key : String) (rh : RouteHandler)
    (hmem : (key, rh) ∈ entries) (hnd : (entries.map Prod.fst).Nodup) :
    ∀ init : List (String × α),
      assocLookup (entries.foldl (fun hs e => setAssoc hs e.1 (f e.2)) init) key =
        some (f rh) := by
  induction entries with
  | nil => cases hmem
  | cons e rest ih =>
    intro init
    obtain ⟨k0, rh0⟩ := e
    simp only [List.map_cons, List.nodup_cons] at hnd
    rw [List.mem_cons] at hmem
    simp only [List.foldl_cons]
    rcases hmem with heq | hmem
    · cases heq
      rw [assocLookup_installFold_notMem f rest key hnd.1, assocLookup_setAssoc_self]
    · exact ih hmem hnd.2 _

theorem walk_cons_static (sp : List String) (dbg : Bool) (r : Route) (n : RouteMapNode)
    (c : String) (rest : List String) (childNode : RouteMapNode)
    (hc : n.child c = some childNode) (hst : childNode.data.staticPath.isSome = true) :
    walkRouteMap sp dbg r n (c :: rest) =
      (n.withData { n.data with components := addToSet c n.data.components },
        some (StarliteError.improperlyConfigured
          "Cannot have configured routes below a static path")) := by
  simp only [walkRouteMap, child_withData, hc, hst, if_true]

theorem walk_cons_go (sp : List String) (dbg : Bool) (r : Route) (n : RouteMapNode)
    (c : String) (rest : List String) (childNode : RouteMapNode)
    (hc : n.child c = some childNode) (hst : childNode.data.staticPath.isSome = false) :
    walkRouteMap sp dbg r n (c :: rest) =
      ((n.withData { n.data with components := addToSet c n.data.components }).withChildren
          (setAssoc n.children c (walkRouteMap sp dbg r childNode rest).1),
        (walkRouteMap sp dbg r childNode rest).2) := by
  simp only [walkRouteMap, child_withData, children_withData, hc, hst, if_false,
    Bool.false_eq_true]

theorem walk_cons_new (sp : List String) (dbg : Bool) (r : Route) (n : RouteMapNode)
    (c : String) (rest : List String) (hc : n.child c = none) :
    walkRouteMap sp dbg r n (c :: rest) =
      (((n.withData { n.data with components := addToSet c n.data.components }).withChildren
            (setAssoc n.children c emptyRouteMapNode)).withChildren
          (setAssoc (setAssoc n.children c emptyRouteMapNode) c
            (walkRouteMap sp dbg r emptyRouteMapNode rest).1),
        (walkRouteMap sp dbg r emptyRouteMapNode rest).2) := by
  simp only [walkRouteMap, child_withData, children_withData, children_withChildren, hc]

theorem nodesPreserved_refl (a : RouteMapNode) : nodesPreserved a a :=
  fun _ m h => ⟨m, h, fun _ hk => hk⟩

theorem nodesPreserved_trans {a b c : RouteMapNode}
    (h1 : nodesPreserved a b) (h2 : nodesPreserved b c) : nodesPreserved a c := by
  intro p m h
  obtain ⟨m1, hm1, hk1⟩ := h1 p m h
  obtain ⟨m2, hm2, hk2⟩ := h2 p m1 hm1
  exact ⟨m2, hm2, fun k hk => hk2 k (hk1 k hk)⟩

theorem nodesPreserved_of_children_eq {a b : RouteMapNode}
    (h : b.children = a.children) : nodesPreserved a b := by
  intro p m hm
  cases p with
  | nil =>
    simp only [getNode, Option.some.injEq] at hm
    subst hm
    refine ⟨b, rfl, fun k hk => ?_⟩
    unfold RouteMapNode.child at hk ⊢
    rwa [h]
  | cons k rest =>
    simp only [getNode] at hm ⊢
    have hbk : b.child k = a.child k := by
      unfold RouteMapNode.child
      rw [h]
    rw [hbk]
    cases hak : a.child k with
    | none => simp [hak] at hm
    | some cn =>
      simp only [hak] at hm
      exact ⟨m, hm, fun _ hk => hk⟩

theorem nodesPreserved_setChild (a : RouteMapNode) (k : String) (newChild : RouteMapNode)
    (h : ∀ m, a.child k = some m → nodesPreserved m newChild) :
    nodesPreserved a (a.withChildren (setAssoc a.children k newChild)) := by
  intro p m hm
  cases p with
  | nil =>
    simp only [getNode, Option.some.injEq] at hm
    subst hm
    refine ⟨a.withChildren (setAssoc a.children k newChild), rfl, fun q hq => ?_⟩
    rw [child_withChildren]
    unfold RouteMapNode.child at hq
    exact assocLookup_setAssoc_isSome _ _ _ _ hq
  | cons q rest =>
    simp only [getNode] at hm ⊢
    rw [child_withChildren]
    by_cases hqk : q = k
    · subst hqk
      cases haq : a.child q with
      | none => simp [haq] at hm
      | some cq =>
        simp only [haq] at hm
        simp only [assocLookup_setAssoc_self]
        exact h cq haq rest m hm
    · rw [assocLookup_setAssoc_ne _ _ _ _ hqk]
      unfold RouteMapNode.child
      cases haq : a.child q with
      | none =>
        simp [haq] at hm
      | some cq =>
        simp only [haq] at hm
        unfold RouteMapNode.child at haq
        simp only [haq]
        exact ⟨m, hm, fun _ hk => hk⟩

theorem walk_success (sp : List String) (dbg : Bool) (r : Route) :
    ∀ (comps : List String) (n n2 : RouteMapNode),
      walkRouteMap sp dbg r n comps = (n2, none) →
      (configureRouteMapNode sp dbg r (getNodeD n comps)).2 = none ∧
      getNode n2 comps = some ((configureRouteMapNode sp dbg r (getNodeD n comps)).1) := by
  intro comps
  induction comps with
  | nil =>
    intro n n2 h
    simp only [walkRouteMap] at h
    simp only [getNodeD, getNode]
    constructor
    · rw [h]
    · rw [h]
  | cons c rest ih =>
    intro n n2 h
    cases hc : n.child c with
    | some childNode =>
      by_cases hst : childNode.data.staticPath.isSome
      · rw [walk_cons_static sp dbg r n c rest childNode hc hst] at h
        simp at h
      · rw [walk_cons_go sp dbg r n c rest childNode hc (by simpa using hst)] at h
        have h2 : (walkRouteMap sp dbg r childNode rest).2 = none := by
          have := congrArg Prod.snd h
          simpa using this
        have hw : walkRouteMap sp dbg r childNode rest =
            ((walkRouteMap sp dbg r childNode rest).1, none) := by rw [← h2]
        obtain ⟨ihok, ihget⟩ := ih childNode _ hw
        have h1 : n2 =
            (n.withData { n.data with components := addToSet c n.data.components }).withChildren
              (setAssoc n.children c (walkRouteMap sp dbg r childNode rest).1) := by
          have := congrArg Prod.fst h
          simpa using this.symm
        subst h1
        constructor
        · simpa only [getNodeD, hc, Option.getD_some] using ihok
        · simp only [getNode, child_withChildren, assocLookup_setAssoc_self]
          simpa only [getNodeD, hc, Option.getD_some] using ihget
    | none =>
      rw [walk_cons_new sp dbg r n c rest hc] at h
      have h2 : (walkRouteMap sp dbg r emptyRouteMapNode rest).2 = none := by
        have := congrArg Prod.snd h
        simpa using this
      have hw : walkRouteMap sp dbg r emptyRouteMapNode rest =
          ((walkRouteMap sp dbg r emptyRouteMapNode rest).1, none) := by rw [← h2]
      obtain ⟨ihok, ihget⟩ := ih emptyRouteMapNode _ hw
      have h1 : n2 =
          ((n.withData { n.data with components := addToSet c n.data.components }).withChildren
              (setAssoc n.children c emptyRouteMapNode)).withChildren
            (setAssoc (setAssoc n.children c emptyRouteMapNode) c
              (walkRouteMap sp dbg r emptyRouteMapNode rest).1) := by
        have := congrArg Prod.fst h
        simpa using this.symm
      subst h1
      constructor
      · simpa only [getNodeD, hc, Option.getD_none] using ihok
      · simp only [getNode, child_withChildren, assocLookup_setAssoc_self]
        simpa only [getNodeD, hc, Option.getD_none] using ihget

theorem walk_components (sp : List String) (dbg : Bool) (r : Route) :
    ∀ (comps : List String) (n n2 : RouteMapNode),
      walkRouteMap sp dbg r n comps = (n2, none) →
      ∀ pre c rest2, comps = pre ++ c :: rest2 →
        ∃ m, getNode n2 pre = some m ∧ c ∈ m.data.components := by
  intro comps
  induction comps with
  | nil =>
    intro n n2 h pre c rest2 hsplit
    exact absurd hsplit (by simp)
  | cons c0 rest ih =>
    intro n n2 h pre c rest2 hsplit
    cases hc : n.child c0 with
    | some childNode =>
      by_cases hst : childNode.data.staticPath.isSome
      · rw [walk_cons_static sp dbg r n c0 rest childNode hc hst] at h
        simp at h
      · rw [walk_cons_go sp dbg r n c0 rest childNode hc (by simpa using hst)] at h
        have h2 : (walkRouteMap sp dbg r childNode rest).2 = none := by
          have := congrArg Prod.snd h
          simpa using this
        have hw : walkRouteMap sp dbg r childNode rest =
            ((walkRouteMap sp dbg r childNode rest).1, none) := by rw [← h2]
        have h1 : n2 =
            (n.withData { n.data with components := addToSet c0 n.data.components }).withChildren
              (setAssoc n.children c0 (walkRouteMap sp dbg r childNode rest).1) := by
          have := congrArg Prod.fst h
          simpa using this.symm
        subst h1
        cases pre with
        | nil =>
          simp only [List.nil_append, List.cons.injEq] at hsplit
          obtain ⟨hcc, hrr⟩ := hsplit
          subst hcc
          refine ⟨_, rfl, ?_⟩
          rw [data_withChildren, data_withData]
          exact mem_addToSet_self c0 n.data.components
        | cons p0 pre2 =>
          simp only [List.cons_append, List.cons.injEq] at hsplit
          obtain ⟨hp0, hrest⟩ := hsplit
          subst hp0
          simp only [getNode, child_withChildren, assocLookup_setAssoc_self]
          exact ih childNode _ hw pre2 c rest2 hrest
    | none =>
      rw [walk_cons_new sp dbg r n c0 rest hc] at h
      have h2 : (walkRouteMap sp dbg r emptyRouteMapNode rest).2 = none := by
        have := congrArg Prod.snd h
        simpa using this
      have hw : walkRouteMap sp dbg r emptyRouteMapNode rest =
          ((walkRouteMap sp dbg r emptyRouteMapNode rest).1, none) := by rw [← h2]
      have h1 : n2 =
          ((n.withData { n.data with components := addToSet c0 n.data.components }).withChildren
              (setAssoc n.children c0 emptyRouteMapNode)).withChildren
            (setAssoc (setAssoc n.children c0 emptyRouteMapNode) c0
              (walkRouteMap sp dbg r emptyRouteMapNode rest).1) := by
        have := congrArg Prod.fst h
        simpa using this.symm
      subst h1
      cases pre with
      | nil =>
        simp only [List.nil_append, List.cons.injEq] at hsplit
        obtain ⟨hcc, hrr⟩ := hsplit
        subst hcc
        refine ⟨_, rfl, ?_⟩
        rw [data_withChildren, data_withChildren, data_withData]
        exact mem_addToSet_self c0 n.data.components
      | cons p0 pre2 =>
        simp only [List.cons_append, List.cons.injEq] at hsplit
        obtain ⟨hp0, hrest⟩ := hsplit
        subst hp0
        simp only [getNode, child_withChildren, assocLookup_setAssoc_self]
        exact ih emptyRouteMapNode _ hw pre2 c rest2 hrest

theorem walk_preserves (sp : List String) (dbg : Bool) (r : Route) :
    ∀ (comps : List String) (n : RouteMapNode),
      nodesPreserved n (walkRouteMap sp dbg r n comps).1 := by
  intro comps
  induction comps with
  | nil =>
    intro n
    simp only [walkRouteMap]
    exact nodesPreserved_of_children_eq (configure_children sp dbg r n)
  | cons c rest ih =>
    intro n
    cases hc : n.child c with
    | some childNode =>
      by_cases hst : childNode.data.staticPath.isSome
      · rw [walk_cons_static sp dbg r n c rest childNode hc hst]
        exact nodesPreserved_of_children_eq (children_withData n _)
      · rw [walk_cons_go sp dbg r n c rest childNode hc (by simpa using hst)]
        have step : nodesPreserved n
            (n.withChildren (setAssoc n.children c (walkRouteMap sp dbg r childNode rest).1)) := by
          apply nodesPreserved_setChild
          intro m hm
          rw [hc] at hm
          cases hm
          exact ih childNode
        exact nodesPreserved_trans step (nodesPreserved_of_children_eq (by
          rw [children_withChildren, children_withChildren]))
    | none =>
      rw [walk_cons_new sp dbg r n c rest hc]
      have step1 : nodesPreserved n
          (n.withChildren (setAssoc n.children c emptyRouteMapNode)) := by
        apply nodesPreserved_setChild
        intro m hm
        rw [hc] at hm
        cases hm
      have step2 : nodesPreserved (n.withChildren (setAssoc n.children c emptyRouteMapNode))
          ((n.withChildren (setAssoc n.children c emptyRouteMapNode)).withChildren
            (setAssoc (setAssoc n.children c emptyRouteMapNode) c
              (walkRouteMap sp dbg r emptyRouteMapNode rest).1)) := by
        have hbase := nodesPreserved_setChild
          (n.withChildren (setAssoc n.children c emptyRouteMapNode)) c
          (walkRouteMap sp dbg r emptyRouteMapNode rest).1
          (fun m hm => by
            rw [child_withChildren, assocLookup_setAssoc_self] at hm
            cases hm
            exact ih emptyRouteMapNode)
        simpa only [children_withChildren] using hbase
      have step3 : nodesPreserved n
          ((n.withChildren (setAssoc n.children c emptyRouteMapNode)).withChildren
            (setAssoc (setAssoc n.children c emptyRouteMapNode) c
              (walkRouteMap sp dbg r emptyRouteMapNode rest).1)) :=
        nodesPreserved_trans step1 step2
      exact nodesPreserved_trans step3 (nodesPreserved_of_children_eq (by
        rw [children_withChildren, children_withChildren]))

theorem getNodeD_of_getNode :
    ∀ (p : List String) (a m : RouteMapNode), getNode a p = some m → getNodeD a p = m := by
  intro p
  induction p with
  | nil =>
    intro a m h
    simp only [getNode, Option.some.injEq] at h
    simpa only [getNodeD] using h
  | cons k rest ih =>
    intro a m h
    simp only [getNode] at h
    simp only [getNodeD]
    cases hc : a.child k with
    | none => simp [hc] at h
    | some c =>
      simp only [hc] at h
      simp only [Option.getD_some]
      exact ih c m h

theorem addNode_trie (s : AppState) (r : Route)
    (h : r.pathParameters ≠ [] ∨ r.path ∈ s.staticPaths) :
    addNodeToRouteMap s r =
      ({ s with routeMap := (walkRouteMap s.staticPaths s.debug r s.routeMap (routeComponents r)).1 },
        routeComponents r,
        (walkRouteMap s.staticPaths s.debug r s.routeMap (routeComponents r)).2) := by
  simp only [addNodeToRouteMap]
  rw [if_pos h]

theorem addNode_plain_existing (s : AppState) (r : Route)
    (hpp : r.pathParameters = []) (hsp : r.path ∉ s.staticPaths)
    (childNode : RouteMapNode) (hc : s.routeMap.child r.path = some childNode) :
    addNodeToRouteMap s r =
      ({ s with
          routeMap := s.routeMap.withChildren
            (setAssoc s.routeMap.children r.path
              (configureRouteMapNode s.staticPaths s.debug r childNode).1),
          plainRoutes := addToSet r.path s.plainRoutes },
        [r.path],
        (configureRouteMapNode s.staticPaths s.debug r childNode).2) := by
  have hcond : ¬(r.pathParameters ≠ [] ∨ r.path ∈ s.staticPaths) := by
    push_neg
    exact ⟨hpp, hsp⟩
  simp only [addNodeToRouteMap]
  rw [if_neg hcond]
  simp only [hc]

theorem addNode_plain_new (s : AppState) (r : Route)
    (hpp : r.pathParameters = []) (hsp : r.path ∉ s.staticPaths)
    (hc : s.routeMap.child r.path = none) :
    addNodeToRouteMap s r =
      ({ s with
          routeMap :=
            (s.routeMap.withChildren
                (setAssoc s.routeMap.children r.path emptyRouteMapNode)).withChildren
              (setAssoc
                (s.routeMap.withChildren
                  (setAssoc s.routeMap.children r.path emptyRouteMapNode)).children
                r.path
                (configureRouteMapNode s.staticPaths s.debug r emptyRouteMapNode).1),
          plainRoutes := addToSet r.path s.plainRoutes },
        [r.path],
        (configureRouteMapNode s.staticPaths s.debug r emptyRouteMapNode).2) := by
  have hcond : ¬(r.pathParameters ≠ [] ∨ r.path ∈ s.staticPaths) := by
    push_neg
    exact ⟨hpp, hsp⟩
  simp only [addNodeToRouteMap]
  rw [if_neg hcond]
  simp only [hc]

theorem addNode_success_node (s : AppState) (r : Route) (s2 : AppState) (np : List String)
    (h : addNodeToRouteMap s r = (s2, np, none)) :
    (configureRouteMapNode s.staticPaths s.debug r (getNodeD s.routeMap np)).2 = none ∧
    getNode s2.routeMap np =
      some ((configureRouteMapNode s.staticPaths s.debug r (getNodeD s.routeMap np)).1) := by
  by_cases htrie : r.pathParameters ≠ [] ∨ r.path ∈ s.staticPaths
  · rw [addNode_trie s r htrie] at h
    rw [Prod.mk.injEq, Prod.mk.injEq] at h
    obtain ⟨h1, h2, h3⟩ := h
    subst h1
    subst h2
    have hw : walkRouteMap s.staticPaths s.debug r s.routeMap (routeComponents r) =
        ((walkRouteMap s.staticPaths s.debug r s.routeMap (routeComponents r)).1, none) := by
      rw [← h3]
    exact walk_success s.staticPaths s.debug r (routeComponents r) s.routeMap _ hw
  · have hpp : r.pathParameters = [] := by
      push_neg at htrie
      exact htrie.1
    have hsp : r.path ∉ s.staticPaths := by
      push_neg at htrie
      exact htrie.2
    cases hc : s.routeMap.child r.path with
    | some childNode =>
      rw [addNode_plain_existing s r hpp hsp childNode hc] at h
      rw [Prod.mk.injEq, Prod.mk.injEq] at h
      obtain ⟨h1, h2, h3⟩ := h
      subst h1
      subst h2
      have hd : getNodeD s.routeMap [r.path] = childNode := by
        simp only [getNodeD, hc, Option.getD_some]
      rw [hd]
      refine ⟨h3, ?_⟩
      simp only [getNode, child_withChildren, assocLookup_setAssoc_self]
    | none =>
      rw [addNode_plain_new s r hpp hsp hc] at h
      rw [Prod.mk.injEq, Prod.mk.injEq] at h
      obtain ⟨h1, h2, h3⟩ := h
      subst h1
      subst h2
      have hd : getNodeD s.routeMap [r.path] = emptyRouteMapNode := by
        simp only [getNodeD, hc, Option.getD_none]
      rw [hd]
      refine ⟨h3, ?_⟩
      simp only [getNode, child_withChildren, assocLookup_setAssoc_self]

theorem addNode_preserves (s : AppState) (r : Route) :
    nodesPreserved s.routeMap ((addNodeToRouteMap s r).1).routeMap := by
  by_cases htrie : r.pathParameters ≠ [] ∨ r.path ∈ s.staticPaths
  · rw [addNode_trie s r htrie]
    exact walk_preserves s.staticPaths s.debug r (routeComponents r) s.routeMap
  · have hpp : r.pathParameters = [] := by
      push_neg at htrie
      exact htrie.1
    have hsp : r.path ∉ s.staticPaths := by
      push_neg at htrie
      exact htrie.2
    cases hc : s.routeMap.child r.path with
    | some childNode =>
      rw [addNode_plain_existing s r hpp hsp childNode hc]
      apply nodesPreserved_setChild
      intro m hm
      rw [hc] at hm
      cases hm
      exact nodesPreserved_of_children_eq (configure_children s.staticPaths s.debug r childNode)
    | none =>
      rw [addNode_plain_new s r hpp hsp hc]
      have step1 : nodesPreserved s.routeMap
          (s.routeMap.withChildren (setAssoc s.routeMap.children r.path emptyRouteMapNode)) := by
        apply nodesPreserved_setChild
        intro m hm
        rw [hc] at hm
        cases hm
      have step2 : nodesPreserved
          (s.routeMap.withChildren (setAssoc s.routeMap.children r.path emptyRouteMapNode))
          ((s.routeMap.withChildren
              (setAssoc s.routeMap.children r.path emptyRouteMapNode)).withChildren
            (setAssoc
              (s.routeMap.withChildren
                (setAssoc s.routeMap.children r.path emptyRouteMapNode)).children
              r.path
              (configureRouteMapNode s.staticPaths s.debug r emptyRouteMapNode).1)) := by
        apply nodesPreserved_setChild
        intro m hm
        rw [child_withChildren, assocLookup_setAssoc_self] at hm
        cases hm
        exact nodesPreserved_of_children_eq
          (configure_children s.staticPaths s.debug r emptyRouteMapNode)
      exact nodesPreserved_trans step1 step2

theorem addNode_fields (s : AppState) (r : Route) :
    ((addNodeToRouteMap s r).1).routes = s.routes ∧
    ((addNodeToRouteMap s r).1).staticPaths = s.staticPaths ∧
    ((addNodeToRouteMap s r).1).registeredRoutes = s.registeredRoutes ∧
    ((addNodeToRouteMap s r).1).debug = s.debug := by
  by_cases htrie : r.pathParameters ≠ [] ∨ r.path ∈ s.staticPaths
  · rw [addNode_trie s r htrie]
    exact ⟨rfl, rfl, rfl, rfl⟩
  · have hpp : r.pathParameters = [] := by
      push_neg at htrie
      exact htrie.1
    have hsp : r.path ∉ s.staticPaths := by
      push_neg at htrie
      exact htrie.2
    cases hc : s.routeMap.child r.path with
    | some childNode =>
      rw [addNode_plain_existing s r hpp hsp childNode hc]
      exact ⟨rfl, rfl, rfl, rfl⟩
    | none =>
      rw [addNode_plain_new s r hpp hsp hc]
      exact ⟨rfl, rfl, rfl, rfl⟩

theorem registerStep_fields (s : AppState) (r : Route) :
    ((registerRouteStep s r).1).routes = s.routes ∧
    ((registerRouteStep s r).1).staticPaths = s.staticPaths ∧
    ((registerRouteStep s r).1).debug = s.debug ∧
    (∀ x ∈ s.registeredRoutes, x ∈ ((registerRouteStep s r).1).registeredRoutes) ∧
    ((registerRouteStep s r).1).routeMap = ((addNodeToRouteMap s r).1).routeMap := by
  obtain ⟨ha1, ha2, ha3, ha4⟩ := addNode_fields s r
  simp only [registerRouteStep]
  cases h22 : (addNodeToRouteMap s r).2.2 with
  | some e =>
    simp only [h22]
    exact ⟨ha1, ha2, ha4, fun x hx => by rw [ha3]; exact hx, by trivial⟩
  | none =>
    simp only [h22]
    cases hg : getNode ((addNodeToRouteMap s r).1).routeMap (addNodeToRouteMap s r).2.1 with
    | none =>
      simp only [hg]
      exact ⟨ha1, ha2, ha4, fun x hx => by rw [ha3]; exact hx, by trivial⟩
    | some n =>
      simp only [hg]
      by_cases hne : n.data.pathParameters ≠ some r.pathParameters
      · rw [if_pos hne]
        exact ⟨ha1, ha2, ha4, fun x hx => by rw [ha3]; exact hx, by trivial⟩
      · rw [if_neg hne]
        refine ⟨ha1, ha2, ha4, fun x hx => ?_, by trivial⟩
        exact mem_addToSet_of_mem (by rw [ha3]; exact hx)

theorem registerStep_success_registered (s : AppState) (r : Route)
    (h : (registerRouteStep s r).2 = none) :
    r ∈ ((registerRouteStep s r).1).registeredRoutes := by
  simp only [registerRouteStep] at h ⊢
  cases h22 : (addNodeToRouteMap s r).2.2 with
  | some e => simp [h22] at h
  | none =>
    simp only [h22] at h ⊢
    have hAN := addNode_success_node s r (addNodeToRouteMap s r).1
      (addNodeToRouteMap s r).2.1 (by rw [← h22])
    simp only [hAN.2] at h ⊢
    by_cases hne : ((configureRouteMapNode s.staticPaths s.debug r
        (getNodeD s.routeMap (addNodeToRouteMap s r).2.1)).1).data.pathParameters ≠
          some r.pathParameters
    · rw [if_pos hne] at h
      simp at h
    · rw [if_neg hne]
      exact mem_addToSet_self r _

theorem registerStep_preserves (s : AppState) (r : Route) :
    nodesPreserved s.routeMap ((registerRouteStep s r).1).routeMap := by
  rw [(registerStep_fields s r).2.2.2.2]
  exact addNode_preserves s r

theorem constructAux_preserves : ∀ (rs : List Route) (s : AppState),
    nodesPreserved s.routeMap ((constructRouteMapAux s rs).1).routeMap := by
  intro rs
  induction rs with
  | nil =>
    intro s
    exact nodesPreserved_refl _
  | cons r rest ih =>
    intro s
    simp only [constructRouteMapAux]
    cases h2 : (registerRouteStep s r).2 with
    | some e =>
      simp only [h2]
      exact registerStep_preserves s r
    | none =>
      simp only [h2]
      exact nodesPreserved_trans (registerStep_preserves s r) (ih _)

theorem constructAux_success : ∀ (rs : List Route) (s s2 : AppState),
    constructRouteMapAux s rs = (s2, none) →
    s2.routes = s.routes ∧
    (∀ x ∈ s.registeredRoutes, x ∈ s2.registeredRoutes) ∧
    (∀ x ∈ rs, x ∈ s2.registeredRoutes) := by
  intro rs
  induction rs with
  | nil =>
    intro s s2 h
    simp only [constructRouteMapAux, Prod.mk.injEq] at h
    obtain ⟨h1, -⟩ := h
    subst h1
    exact ⟨rfl, fun x hx => hx, by simp⟩
  | cons r rest ih =>
    intro s s2 h
    simp only [constructRouteMapAux] at h
    cases h2 : (registerRouteStep s r).2 with
    | some e =>
      simp only [h2] at h
      simp at h
    | none =>
      simp only [h2] at h
      obtain ⟨hroutes, hreg, hall⟩ := ih _ _ h
      have hf := registerStep_fields s r
      refine ⟨hroutes.trans hf.1, fun x hx => hreg x (hf.2.2.2.1 x hx), fun x hx => ?_⟩
      rw [List.mem_cons] at hx
      rcases hx with rfl | hx
      · exact hreg x (registerStep_success_registered s x h2)
      · exact hall x hx

theorem filter_eq_nil_of_forall {α : Type} (l : List α) (p : α → Bool)
    (h : ∀ a ∈ l, p a = false) : l.filter p = [] := by
  induction l with
  | nil => rfl
  | cons a rest ih =>
    rw [List.filter_cons, h a (List.mem_cons_self a rest)]
    simp only [Bool.false_eq_true, if_false]
    exact ih fun b hb => h b (List.mem_cons_of_mem a hb)

theorem constructRouteMap_success (s s2 : AppState) (h : constructRouteMap s = (s2, none)) :
    s2.routes = s.routes ∧ ∀ x ∈ s.routes, x ∈ s2.registeredRoutes := by
  simp only [constructRouteMap] at h
  obtain ⟨hroutes, hreg, hall⟩ := constructAux_success _ _ _ h
  refine ⟨hroutes, fun x hx => ?_⟩
  by_cases hx2 : x ∈ s.registeredRoutes
  · exact hreg x hx2
  · exact hall x (List.mem_filter.mpr ⟨hx, by simp [hx2]⟩)

/-- C1: for every route and each of its protocol handlers,
`_build_route_middleware_stack` wraps `route.handle` in an
exception-translation layer configured with the handler's resolved
exception-handler mapping, wraps that in each middleware the handler resolves
in order (first resolved innermost), and finally wraps the entire stack a
second time in an exception-translation layer with the same resolved mapping,
so the outermost layer is exception translation. -/
theorem route_chain_double_exception_wrap (dbg : Bool) (route : Route) (rh : RouteHandler) :
    buildRouteMiddlewareStack dbg route rh =
      ASGIApp.exceptionHandlerMiddleware
        (nestMiddleware rh.resolvedMiddleware
          (ASGIApp.exceptionHandlerMiddleware (ASGIApp.routeHandle route.routeId)
            rh.resolvedExceptionHandlers dbg))
        rh.resolvedExceptionHandlers dbg := by
  have hfold : ∀ (ms : List Nat) (app : ASGIApp),
      ms.foldl (fun acc m => ASGIApp.middlewareWrap m acc) app = nestMiddleware ms app := by
    intro ms
    induction ms with
    | nil => intro app; rfl
    | cons m rest ih =>
      intro app
      simp only [List.foldl_cons, nestMiddleware]
      exact ih _
  simp only [buildRouteMiddlewareStack, wrapInExceptionHandler, hfold]

/-- C2 counterexample: with a compression config provided and an allowed-hosts
list provided but empty, the code produces exception-translation outermost
wrapping compression wrapping the router, which differs from the claimed
shape (compression outermost, then trusted-host since its configuration was
provided, then exception-translation just around the dispatcher). -/
theorem app_shell_wrap_order_counterexample :
    createAsgiHandler c2Config =
        ASGIApp.exceptionHandlerMiddleware
          (ASGIApp.compressionMiddleware ASGIApp.asgiRouter 1) [] false ∧
      ASGIApp.exceptionHandlerMiddleware
          (ASGIApp.compressionMiddleware ASGIApp.asgiRouter 1) [] false ≠
        ASGIApp.compressionMiddleware
          (ASGIApp.trustedHostMiddleware
            (ASGIApp.exceptionHandlerMiddleware ASGIApp.asgiRouter [] false) []) 1 :=
  ⟨rfl, by decide⟩

/-- C2 amended: `_create_asgi_handler` applies, innermost-first around the
router, compression, then trusted-host, then CORS, then CSRF, each present
exactly when its configuration is provided except trusted-host, which also
requires the provided host list to be non-empty; the stack is always finished
with an outermost exception-translation layer carrying the application-level
default exception handlers and the debug flag. -/
theorem app_shell_wrap_order (cfg : AppConfig) :
    shellLayers (createAsgiHandler cfg) =
      "exception_handler" ::
        ((if cfg.csrfConfig.isSome then ["csrf"] else []) ++
         (if cfg.corsConfig.isSome then ["cors"] else []) ++
         (if (cfg.allowedHosts.getD []).isEmpty then [] else ["trusted_host"]) ++
         (if cfg.compressionConfig.isSome then ["compression"] else []) ++
         ["router"]) ∧
    ∃ inner, createAsgiHandler cfg =
      ASGIApp.exceptionHandlerMiddleware inner (cfg.exceptionHandlers.getD []) cfg.debug := by
  obtain ⟨comp, hosts, cors, csrf, eh, dbg⟩ := cfg
  constructor
  · rcases hosts with _ | (_ | ⟨a, hrest⟩) <;> cases comp <;> cases cors <;> cases csrf <;>
      simp [createAsgiHandler, shellLayers]
  · exact ⟨_, rfl⟩

/-- C3 evaluation: the code does not enforce the static-subtree invariant for
parameter-free routes.  After a static mount at "/static", registering the
parameter-free route "/static/extra" raises nothing: it is inserted as a
plain route off the root and never walks through the node marked with
`_static_path`; the reverse insertion order also raises nothing, because the
static node's `_components` set is never touched by the plain insertion. -/
theorem static_subtree_plain_route_hole :
    (registerRouteStep (freshState ["/static"]) staticMountRoute).2 = none ∧
    (registerRouteStep (registerRouteStep (freshState ["/static"]) staticMountRoute).1
        staticExtraRoute).2 = none ∧
    "/static/extra" ∈ (registerRouteStep
        (registerRouteStep (freshState ["/static"]) staticMountRoute).1
        staticExtraRoute).1.plainRoutes ∧
    (getNode (registerRouteStep (freshState ["/static"]) staticMountRoute).1.routeMap
        ["/", "static"]).map (fun n => n.data.staticPath) = some (some "/static") ∧
    (registerRouteStep (freshState ["/static"]) staticExtraRoute).2 = none ∧
    (registerRouteStep (registerRouteStep (freshState ["/static"]) staticExtraRoute).1
        staticMountRoute).2 = none := by
  decide

/-- C8: dispatcher misses are two distinct outcomes: no matching node yields
the not-found exception (status 404), and a matching node without the
requested dispatch key yields the method-not-allowed exception (status 405);
the exception classes and their default status codes differ. -/
theorem routing_miss_distinct_errors (s : AppState) (path dispatchKey : String) :
    (findNode s path = none →
      resolveHandler s path dispatchKey = Except.error ExceptionClass.notFoundException) ∧
    (∀ n, findNode s path = some n →
      assocLookup (n.data.asgiHandlers.getD []) dispatchKey = none →
      resolveHandler s path dispatchKey =
        Except.error ExceptionClass.methodNotAllowedException) ∧
    ExceptionClass.notFoundException.defaultStatusCode = 404 ∧
    ExceptionClass.methodNotAllowedException.defaultStatusCode = 405 ∧
    ExceptionClass.notFoundException ≠ ExceptionClass.methodNotAllowedException ∧
    (404 : Nat) ≠ 405 := by
  refine ⟨?_, ?_, rfl, rfl, by decide, by decide⟩
  · intro h
    simp [resolveHandler, h]
  · intro n hn hkey
    simp [resolveHandler, hn, hkey]

/-- C8 witness: on a concrete state with one plain GET route at /known, a
request to an unknown path is a not-found outcome and a DELETE request to the
known path a method-not-allowed outcome. -/
theorem routing_miss_distinct_errors_witness :
    resolveHandler demoDispatchState "/miss" "GET" =
        Except.error ExceptionClass.notFoundException ∧
      resolveHandler demoDispatchState "/known" "DELETE" =
        Except.error ExceptionClass.methodNotAllowedException := by
  constructor
  · exact (routing_miss_distinct_errors demoDispatchState "/miss" "GET").1 rfl
  · exact (routing_miss_distinct_errors demoDispatchState "/known" "DELETE").2.1
      demoKnownNode rfl rfl

/-- C9: route-map construction only grows the structure: every node reachable
before a `_construct_route_map` call is still reachable afterwards, with all
of its existing child keys still present. -/
theorem route_map_only_grows (s : AppState) :
    nodesPreserved s.routeMap ((constructRouteMap s).1).routeMap := by
  simp only [constructRouteMap]
  exact constructAux_preserves _ s

/-- C9 witness: the root child "/" of a concrete state survives construction
with its child keys intact. -/
theorem route_map_only_grows_witness :
    ∃ m2, getNode ((constructRouteMap demoTreeState).1).routeMap ["/"] = some m2 ∧
      ∀ k, (emptyRouteMapNode.child k).isSome = true → (m2.child k).isSome = true :=
  route_map_only_grows demoTreeState ["/"] emptyRouteMapNode rfl

/-- C5: a successful `_construct_route_map` records every processed route in
`_registered_routes`, so running it again on the resulting state is a no-op:
it returns the state unchanged (same route map, plain-route index and
compiled chains) with no error. -/
theorem construct_route_map_idempotent (s s2 : AppState)
    (h : constructRouteMap s = (s2, none)) :
    constructRouteMap s2 = (s2, none) := by
  obtain ⟨hroutes, hall⟩ := constructRouteMap_success s s2 h
  have hfilter : s2.routes.filter (fun r => !decide (r ∈ s2.registeredRoutes)) = [] := by
    rw [hroutes]
    apply filter_eq_nil_of_forall
    intro a ha
    simp [hall a ha]
  simp only [constructRouteMap, hfilter, constructRouteMapAux]

/-- C5 witness: constructing the route map for a concrete one-route
application twice leaves the state of the first construction unchanged. -/
theorem construct_route_map_idempotent_witness :
    constructRouteMap ((constructRouteMap pingState).1) =
      ((constructRouteMap pingState).1, none) :=
  construct_route_map_idempotent pingState ((constructRouteMap pingState).1) rfl

/-- C4: a node's `_path_parameters` are set by the first route that maps to
it (after a successful registration the node holds exactly that route's
descriptors), and registering a second route that maps to the same trie node
with different path-parameter descriptors raises
ImproperlyConfiguredException during registration. -/
theorem node_path_parameters_conflict (s s1 : AppState) (r1 r2 : Route)
    (h1 : registerRouteStep s r1 = (s1, none))
    (htrie1 : r1.pathParameters ≠ [] ∨ r1.path ∈ s.staticPaths)
    (htrie2 : r2.pathParameters ≠ [] ∨ r2.path ∈ s1.staticPaths)
    (hsame : routeComponents r2 = routeComponents r1)
    (hdiff : r2.pathParameters ≠ r1.pathParameters) :
    (∃ n, getNode s1.routeMap (routeComponents r1) = some n ∧
      n.data.pathParameters = some r1.pathParameters) ∧
    ∃ d, (registerRouteStep s1 r2).2 = some (StarliteError.improperlyConfigured d) := by
  have hnp1 : (addNodeToRouteMap s r1).2.1 = routeComponents r1 := by
    rw [addNode_trie s r1 htrie1]
  simp only [registerRouteStep] at h1
  cases h22 : (addNodeToRouteMap s r1).2.2 with
  | some e =>
    simp [h22] at h1
  | none =>
    simp only [h22] at h1
    have hAN := addNode_success_node s r1 (addNodeToRouteMap s r1).1
      (addNodeToRouteMap s r1).2.1 (by rw [← h22])
    simp only [hAN.2] at h1
    by_cases hne : ((configureRouteMapNode s.staticPaths s.debug r1
        (getNodeD s.routeMap (addNodeToRouteMap s r1).2.1)).1).data.pathParameters ≠
          some r1.pathParameters
    · rw [if_pos hne] at h1
      simp at h1
    · rw [if_neg hne] at h1
      rw [not_ne_iff] at hne
      rw [Prod.mk.injEq] at h1
      obtain ⟨h1a, -⟩ := h1
      have hget : getNode s1.routeMap (routeComponents r1) =
          some ((configureRouteMapNode s.staticPaths s.debug r1
            (getNodeD s.routeMap (addNodeToRouteMap s r1).2.1)).1) := by
        rw [← h1a, ← hnp1]
        exact hAN.2
      refine ⟨⟨_, hget, hne⟩, ?_⟩
      have hgd : getNodeD s1.routeMap (routeComponents r1) =
          (configureRouteMapNode s.staticPaths s.debug r1
            (getNodeD s.routeMap (addNodeToRouteMap s r1).2.1)).1 :=
        getNodeD_of_getNode _ _ _ hget
      have hnp2 : (addNodeToRouteMap s1 r2).2.1 = routeComponents r2 := by
        rw [addNode_trie s1 r2 htrie2]
      simp only [registerRouteStep]
      cases e2 : (addNodeToRouteMap s1 r2).2.2 with
      | some err =>
        simp only [e2]
        cases err with
        | improperlyConfigured d => exact ⟨d, rfl⟩
      | none =>
        have hAN2 := addNode_success_node s1 r2 (addNodeToRouteMap s1 r2).1
          (addNodeToRouteMap s1 r2).2.1 (by rw [← e2])
        simp only [e2, hAN2.2]
        have hconf2 : ((configureRouteMapNode s1.staticPaths s1.debug r2
            (getNodeD s1.routeMap (addNodeToRouteMap s1 r2).2.1)).1).data.pathParameters =
              some r1.pathParameters := by
          rw [configure_pathParameters, hnp2, hsame, hgd, hne]
          rfl
        have hcond : ((configureRouteMapNode s1.staticPaths s1.debug r2
            (getNodeD s1.routeMap (addNodeToRouteMap s1 r2).2.1)).1).data.pathParameters ≠
              some r2.pathParameters := by
          rw [hconf2]
          simp only [ne_eq, Option.some.injEq]
          exact fun hh => hdiff hh.symm
        rw [if_pos hcond]
        exact ⟨_, rfl⟩

/-- C4 witness: registering /a/{id:int} and then /a/{id:str} on a fresh
application puts the int descriptors on the shared node and fails the second
registration with a configuration error. -/
theorem node_path_parameters_conflict_witness :
    (∃ n, getNode conflictState.routeMap (routeComponents intParamRoute) = some n ∧
      n.data.pathParameters = some intParamRoute.pathParameters) ∧
    ∃ d, (registerRouteStep conflictState strParamRoute).2 =
      some (StarliteError.improperlyConfigured d) :=
  node_path_parameters_conflict (freshState []) conflictState intParamRoute strParamRoute
    rfl (by decide) (by decide) (by decide) (by decide)

/-- C6: for a route with path parameters (or a static mount), insertion walks
the trie along `routeComponents` (each parameter's full placeholder stripped,
each "{}" slot replaced by the wildcard "*", split on "/", the root segment
"/" first): the returned access path is that component list, every traversal
step records the next component in the parent node's `_components` set, and
on success a node exists at the full component path. -/
theorem trie_insertion_components (s s2 : AppState) (np : List String)
    (err : Option StarliteError) (r : Route)
    (htrie : r.pathParameters ≠ [] ∨ r.path ∈ s.staticPaths)
    (hres : addNodeToRouteMap s r = (s2, np, err)) :
    np = routeComponents r ∧
    (err = none → ∀ pre c rest2, routeComponents r = pre ++ c :: rest2 →
      ∃ m, getNode s2.routeMap pre = some m ∧ c ∈ m.data.components) ∧
    (err = none → (getNode s2.routeMap (routeComponents r)).isSome = true) := by
  rw [addNode_trie s r htrie] at hres
  rw [Prod.mk.injEq, Prod.mk.injEq] at hres
  obtain ⟨h1, h2, h3⟩ := hres
  subst h1
  subst h2
  refine ⟨rfl, ?_, ?_⟩
  · intro he pre c rest2 hsplit
    rw [he] at h3
    have hw : walkRouteMap s.staticPaths s.debug r s.routeMap (routeComponents r) =
        ((walkRouteMap s.staticPaths s.debug r s.routeMap (routeComponents r)).1, none) := by
      rw [← h3]
    exact walk_components s.staticPaths s.debug r (routeComponents r) s.routeMap _ hw
      pre c rest2 hsplit
  · intro he
    rw [he] at h3
    have hw : walkRouteMap s.staticPaths s.debug r s.routeMap (routeComponents r) =
        ((walkRouteMap s.staticPaths s.debug r s.routeMap (routeComponents r)).1, none) := by
      rw [← h3]
    rw [(walk_success s.staticPaths s.debug r (routeComponents r) s.routeMap _ hw).2]
    rfl

/-- C6 witness: inserting /foo/{id:int} on a fresh application walks the
components ["/", "foo", "*"] and records "*" in the components set of the
node at ["/", "foo"]. -/
theorem trie_insertion_components_witness :
    fooAdded.2.1 = ["/", "foo", "*"] ∧
    ∃ m, getNode fooAdded.1.routeMap ["/", "foo"] = some m ∧ "*" ∈ m.data.components := by
  have h := trie_insertion_components (freshState []) fooAdded.1 fooAdded.2.1 fooAdded.2.2
    fooParamRoute (by decide) rfl
  refine ⟨h.1.trans (by decide), ?_⟩
  exact h.2.1 (by decide) ["/", "foo"] "*" [] (by decide)

/-- C7: for a route with no path parameters that is not a static mount,
insertion bypasses the trie: the full path is the literal key of the node off
the root (created only when absent, reused otherwise), the path is added to
the plain-routes set, the root's special keys are untouched, and every other
root child is untouched. -/
theorem plain_route_fast_path (s s2 : AppState) (np : List String)
    (err : Option StarliteError) (r : Route)
    (hpp : r.pathParameters = []) (hst : r.path ∉ s.staticPaths)
    (hres : addNodeToRouteMap s r = (s2, np, err)) :
    np = [r.path] ∧
    s2.plainRoutes = addToSet r.path s.plainRoutes ∧
    r.path ∈ s2.plainRoutes ∧
    s2.routeMap.data = s.routeMap.data ∧
    (∀ k, k ≠ r.path → s2.routeMap.child k = s.routeMap.child k) ∧
    (∀ m, s.routeMap.child r.path = some m →
      s2.routeMap.child r.path =
        some (configureRouteMapNode s.staticPaths s.debug r m).1) ∧
    (s.routeMap.child r.path = none →
      s2.routeMap.child r.path =
        some (configureRouteMapNode s.staticPaths s.debug r emptyRouteMapNode).1) := by
  cases hc : s.routeMap.child r.path with
  | some childNode =>
    rw [addNode_plain_existing s r hpp hst childNode hc] at hres
    rw [Prod.mk.injEq, Prod.mk.injEq] at hres
    obtain ⟨h1, h2, h3⟩ := hres
    subst h1
    subst h2
    refine ⟨rfl, rfl, mem_addToSet_self _ _, data_withChildren _ _, ?_, ?_, ?_⟩
    · intro k hk
      simp only [child_withChildren, assocLookup_setAssoc_ne _ _ _ _ hk]
      rfl
    · intro m hm
      cases hm
      simp only [child_withChildren, assocLookup_setAssoc_self]
    · intro hnone
      simp at hnone
  | none =>
    rw [addNode_plain_new s r hpp hst hc] at hres
    rw [Prod.mk.injEq, Prod.mk.injEq] at hres
    obtain ⟨h1, h2, h3⟩ := hres
    subst h1
    subst h2
    refine ⟨rfl, rfl, mem_addToSet_self _ _, ?_, ?_, ?_, ?_⟩
    · simp only [data_withChildren]
    · intro k hk
      simp only [child_withChildren, children_withChildren,
        assocLookup_setAssoc_ne _ _ _ _ hk]
      rfl
    · intro m hm
      simp at hm
    · intro hnone
      simp only [child_withChildren, children_withChildren, assocLookup_setAssoc_self]

/-- C7 witness: inserting the plain route /health on a fresh application uses
the literal key "/health" and records it in the plain-routes set. -/
theorem plain_route_fast_path_witness :
    healthAdded.2.1 = ["/health"] ∧ "/health" ∈ healthAdded.1.plainRoutes := by
  have h := plain_route_fast_path (freshState []) healthAdded.1 healthAdded.2.1
    healthAdded.2.2 healthRoute (by decide) (by decide) rfl
  exact ⟨h.1, h.2.2.1⟩

/-- C10: registration is not atomic on a path-parameter conflict: when the
node reached by the insertion holds descriptors differing from the route's,
`registerRouteStep` raises the conflict error only after
`_configure_route_map_node` has already installed the conflicting route's
compiled handler chains into the shared node's `_asgi_handlers` map, and the
returned state is the mutated one. -/
theorem conflict_error_after_node_mutation (s : AppState) (r : Route) (s2 : AppState)
    (np : List String) (n : RouteMapNode)
    (h : addNodeToRouteMap s r = (s2, np, none))
    (hn : getNode s2.routeMap np = some n)
    (hconf : n.data.pathParameters ≠ some r.pathParameters)
    (hnd : ((routeHandlerEntries r).map Prod.fst).Nodup) :
    registerRouteStep s r =
      (s2, some (StarliteError.improperlyConfigured
        "Should not use routes with conflicting path parameters")) ∧
    ∀ key rh, (key, rh) ∈ routeHandlerEntries r →
      assocLookup (n.data.asgiHandlers.getD []) key =
        some (buildRouteMiddlewareStack s.debug r rh) := by
  have hAN := addNode_success_node s r s2 np h
  have hnn : n = (configureRouteMapNode s.staticPaths s.debug r
      (getNodeD s.routeMap np)).1 := by
    have h2 := hAN.2
    rw [hn] at h2
    injection h2 with h3
  constructor
  · simp only [registerRouteStep, h]
    simp only [hn]
    rw [if_pos hconf]
  · intro key rh hmem
    rw [hnn, configure_asgiHandlers s.staticPaths s.debug r _ hAN.1]
    simp only [Option.getD_some]
    exact assocLookup_installFold (buildRouteMiddlewareStack s.debug r)
      (routeHandlerEntries r) key rh hmem hnd _

/-- C10 witness: after /a/{id:int} is registered, inserting /a/{id:str}
installs its GET chain on the shared node and only then the conflict error is
raised, returning the mutated state. -/
theorem conflict_error_after_node_mutation_witness :
    registerRouteStep conflictState strParamRoute =
      (conflictAdded.1, some (StarliteError.improperlyConfigured
        "Should not use routes with conflicting path parameters")) ∧
    assocLookup (conflictNode.data.asgiHandlers.getD []) "GET" =
      some (buildRouteMiddlewareStack conflictState.debug strParamRoute demoHandler) := by
  have h := conflict_error_after_node_mutation conflictState strParamRoute conflictAdded.1
    conflictAdded.2.1 conflictNode rfl rfl (by decide) (by decide)
  exact ⟨h.1, h.2 "GET" demoHandler (by decide)⟩
